import Mathlib

/-!
Verification of the Revolut USD-to-GBP statement converter.

This file gives a shallow embedding of the two source modules:

* exchange_rate_client.py — the cached exchange-rate client
  (get_exchange_rate_to_gbp, with its lru_cache memoisation, date
  validation and GBP short-circuit), and
* main.py — the per-row conversion rule (calculate_gbp_amount) and the
  batch pipeline (process_revolut_csv: required-column check, sort by
  date, per-row conversion, rounding).

Monetary values are modelled as rationals; the external HTTP fetch is an
oracle parameter indexed by the number of network calls made so far, so
that distinct attempts may answer differently; the lru_cache decorator is
modelled as an explicit most-recently-used association list bounded at
128 entries, threaded through every call as explicit state.  The pandas
sort_values call uses the default kind (quicksort), which orders rows by
the key but does not promise stability, so the sort is modelled as a
parameter constrained to produce a permutation sorted by date.
-/

/-- Calendar date (year, month, day): the parsed payload of the
"Date completed (UTC)" column. -/
structure Date where
  year : Nat
  month : Nat
  day : Nat
deriving DecidableEq, Repr

/-- Chronological (lexicographic) order on dates, as used when sorting by
the date column. -/
def Date.le (a b : Date) : Prop :=
  a.year < b.year ∨
    (a.year = b.year ∧ (a.month < b.month ∨ (a.month = b.month ∧ a.day ≤ b.day)))

instance (a b : Date) : Decidable (Date.le a b) := by
  unfold Date.le
  infer_instance

/-- The decimal digit character for n < 10. -/
def digitChar (n : Nat) : Char :=
  Char.ofNat (48 + n)

/-- Two-digit zero-padded decimal rendering, as strftime %m / %d produce. -/
def pad2 (n : Nat) : String :=
  String.mk [digitChar (n / 10 % 10), digitChar (n % 10)]

/-- Four-digit zero-padded decimal rendering, as strftime %Y produces for
the years a ledger can contain. -/
def pad4 (n : Nat) : String :=
  String.mk [digitChar (n / 1000 % 10), digitChar (n / 100 % 10),
             digitChar (n / 10 % 10), digitChar (n % 10)]

/-- transaction_date.strftime of the format string for ISO dates:
"YYYY-MM-DD". -/
def strftimeYMD (d : Date) : String :=
  pad4 d.year ++ "-" ++ pad2 d.month ++ "-" ++ pad2 d.day

/-- Python str.upper for the ASCII currency codes the program handles. -/
def pyUpper (s : String) : String :=
  String.mk (s.data.map Char.toUpper)

/-- Split a character list at every dash, keeping empty pieces, mirroring
how a "%Y-%m-%d" pattern cuts the date string at its literal dashes. -/
def splitDash : List Char → List (List Char)
  | [] => [[]]
  | c :: cs =>
    if c = '-' then [] :: splitDash cs
    else
      match splitDash cs with
      | [] => [[c]]
      | p :: ps => (c :: p) :: ps

/-- Numeric value of a list of decimal digit characters. -/
def natOfDigits (cs : List Char) : Nat :=
  cs.foldl (fun n c => n * 10 + (c.toNat - 48)) 0

/-- Gregorian leap-year rule, as datetime uses to validate the day. -/
def isLeapYear (y : Nat) : Bool :=
  y % 4 = 0 && (y % 100 ≠ 0 || y % 400 = 0)

/-- Number of days of month m in year y. -/
def daysInMonth (y m : Nat) : Nat :=
  if m = 2 then (if isLeapYear y then 29 else 28)
  else if m = 4 || m = 6 || m = 9 || m = 11 then 30
  else 31

/-- datetime.strptime(s, "%Y-%m-%d") succeeds: three dash-separated
all-digit fields, the year exactly four digits and positive, month and
day at most two digits, month in 1..12 and day within the month. -/
def validDateYMD (s : String) : Bool :=
  match splitDash s.data with
  | [ys, ms, ds] =>
    ys.all Char.isDigit && ys.length = 4 &&
    ms.all Char.isDigit && 0 < ms.length && ms.length ≤ 2 &&
    ds.all Char.isDigit && 0 < ds.length && ds.length ≤ 2 &&
    (let y := natOfDigits ys
     let m := natOfDigits ms
     let d := natOfDigits ds
     1 ≤ y && 1 ≤ m && m ≤ 12 && 1 ≤ d && d ≤ daysInMonth y m)
  | _ => false

/-- The error raised by the exchange-rate client when a lookup fails, one
constructor per condition raised in exchange_rate_client.py. -/
inductive ExchangeRateError where
  | invalidDate (dateStr : String)
  | notFoundForDate (dateStr : String)
  | httpError (code : Nat) (reason : String)
  | transportError (reason : String)
  | noRateFound (currency dateStr : String)
  | malformedResponse
  | unexpected (msg : String)
deriving DecidableEq, Repr

/-- str(e) for each ExchangeRateError: the message string built at each
raise site in exchange_rate_client.py. -/
def ExchangeRateError.message : ExchangeRateError → String
  | .invalidDate d => "Invalid date format: " ++ d ++ ". Expected YYYY-MM-DD"
  | .notFoundForDate d => "No exchange rate data available for date: " ++ d
  | .httpError code reason => "HTTP error " ++ toString code ++ ": " ++ reason
  | .transportError reason => "Network error: " ++ reason
  | .noRateFound c d => "No GBP rate found in response for " ++ c ++ " on " ++ d
  | .malformedResponse => "Invalid JSON response from API"
  | .unexpected msg => "Unexpected error: " ++ msg

/-- State of the memoised client: the lru_cache contents, most recently
used first, plus a count of external network requests issued so far. -/
structure ClientState where
  cache : List ((String × String) × ℚ)
  networkCalls : Nat
deriving DecidableEq, Repr

/-- The state at interpreter start: empty cache, no calls made. -/
def ClientState.init : ClientState :=
  { cache := [], networkCalls := 0 }

/-- Cache lookup on the exact argument pair, as lru_cache keys calls. -/
def cacheLookup (cache : List ((String × String) × ℚ)) (k : String × String) :
    Option ℚ :=
  (cache.find? fun p => decide (p.1 = k)).map (fun p => p.2)

/-- A cache hit moves the entry to the most-recently-used position. -/
def cacheTouch (cache : List ((String × String) × ℚ)) (k : String × String)
    (v : ℚ) : List ((String × String) × ℚ) :=
  (k, v) :: cache.filter fun p => !(decide (p.1 = k))

/-- Record a freshly computed value, evicting beyond maxsize=128. -/
def cacheInsert (cache : List ((String × String) × ℚ)) (k : String × String)
    (v : ℚ) : List ((String × String) × ℚ) :=
  (((k, v) :: cache.filter fun p => !(decide (p.1 = k))).take 128)

/-- The external historical-rate source: given the number of requests made
so far (so that distinct attempts may answer differently), the uppercased
base currency and the date, either the GBP rate parsed out of the
response or the ExchangeRateError the request raised. -/
def FetchOracle : Type :=
  Nat → String → String → Except ExchangeRateError ℚ

/-- get_exchange_rate_to_gbp of exchange_rate_client.py, lru_cache
included: on a hit the memoised value is returned and no code of the body
runs; on a miss the body validates the date, short-circuits any casing of
GBP to 1.0, and otherwise issues one network request, caching the value
only on success. -/
def get_exchange_rate_to_gbp (fetch : FetchOracle) (currency dateStr : String)
    (st : ClientState) : Except ExchangeRateError ℚ × ClientState :=
  match cacheLookup st.cache (currency, dateStr) with
  | some v =>
    (Except.ok v, { st with cache := cacheTouch st.cache (currency, dateStr) v })
  | none =>
    if validDateYMD dateStr then
      if pyUpper currency = "GBP" then
        (Except.ok 1,
         { st with cache := cacheInsert st.cache (currency, dateStr) 1 })
      else
        match fetch st.networkCalls (pyUpper currency) dateStr with
        | Except.ok rate =>
          (Except.ok rate,
           { cache := cacheInsert st.cache (currency, dateStr) rate,
             networkCalls := st.networkCalls + 1 })
        | Except.error e =>
          (Except.error e, { st with networkCalls := st.networkCalls + 1 })
    else
      (Except.error (ExchangeRateError.invalidDate dateStr), st)

/-- States reachable by the client: every cached key has a date that
passed validation, and every key whose currency uppercases to GBP was
cached by the GBP short-circuit, hence holds 1. -/
def WellFormedState (st : ClientState) : Prop :=
  ∀ p ∈ st.cache, validDateYMD p.1.2 = true ∧ (pyUpper p.1.1 = "GBP" → p.2 = 1)

/-- One input transaction row, restricted to the columns the pipeline
keeps. -/
structure TransactionRow where
  completedDate : Date
  description : String
  origCurrency : String
  origAmount : ℚ
  amount : ℚ
  balance : ℚ
deriving DecidableEq, Repr

/-- COLUMNS_TO_KEEP of main.py. -/
def COLUMNS_TO_KEEP : List String :=
  ["Date completed (UTC)", "Description", "Orig currency", "Orig amount",
   "Amount", "Balance"]

/-- The required columns absent from the input header, in the order the
check of process_revolut_csv collects them. -/
def missingColumns (cols : List String) : List String :=
  COLUMNS_TO_KEEP.filter fun c => !(cols.contains c)

/-- The two stderr lines printed when a row's rate lookup fails, joined;
the first names the affected date. -/
def warningMessage (dateStr : String) (e : ExchangeRateError) : String :=
  "Warning: Could not fetch exchange rate for " ++ dateStr ++ ": " ++
    e.message ++ "\n" ++
    "  Using 0.0 for Amount GBP. Please check this transaction manually."

/-- calculate_gbp_amount of main.py: the GBP branch takes the magnitude
from Orig amount and the sign from Amount without touching the client;
every other currency converts the already-USD Amount with the USD rate of
the row's date, degrading to 0.0 plus a warning if the lookup raises. -/
def calculate_gbp_amount (fetch : FetchOracle) (row : TransactionRow)
    (st : ClientState) : (ℚ × Option String) × ClientState :=
  if row.origCurrency = "GBP" then
    ((if row.amount ≥ 0 then |row.origAmount| else -|row.origAmount|, none), st)
  else
    let dateStr := strftimeYMD row.completedDate
    match get_exchange_rate_to_gbp fetch "USD" dateStr st with
    | (Except.ok rate, st') => ((row.amount * rate, none), st')
    | (Except.error e, st') => ((0, some (warningMessage dateStr e)), st')

/-- Round-half-to-even to an integer, the rounding numpy applies. -/
def roundHalfToEven (x : ℚ) : ℤ :=
  if x - ⌊x⌋ < 1/2 then ⌊x⌋
  else if x - ⌊x⌋ > 1/2 then ⌊x⌋ + 1
  else if ⌊x⌋ % 2 = 0 then ⌊x⌋ else ⌊x⌋ + 1

/-- Series.round(2): round-half-to-even at two decimal places. -/
def round2 (x : ℚ) : ℚ :=
  (roundHalfToEven (x * 100) : ℚ) / 100

/-- One output row, with the lower-case output header values. -/
structure NormalizedRow where
  date : Date
  description : String
  amount : ℚ
  balance : ℚ
  amountGbp : ℚ
deriving DecidableEq, Repr

/-- Assemble the output row for one transaction from its computed GBP
amount, applying the two-decimal rounding of the numeric columns. -/
def mkNormalized (r : TransactionRow) (gbp : ℚ) : NormalizedRow :=
  { date := r.completedDate, description := r.description,
    amount := round2 r.amount, balance := round2 r.balance,
    amountGbp := round2 gbp }

/-- df.apply of calculate_gbp_amount down the sorted rows, threading the
client state left to right as sequential execution does. -/
def processRows (fetch : FetchOracle) :
    List TransactionRow → ClientState → List NormalizedRow × ClientState
  | [], st => ([], st)
  | r :: rs, st =>
    let res := calculate_gbp_amount fetch r st
    let rest := processRows fetch rs res.2
    (mkNormalized r res.1.1 :: rest.1, rest.2)

/-- process_revolut_csv of main.py after the file has been read: check
the required columns, abort naming the missing ones, otherwise sort by
date with the library sort (passed as a parameter, see
IsSortValuesBehavior) and convert row by row. -/
def process_revolut_csv (fetch : FetchOracle)
    (sortImpl : List TransactionRow → List TransactionRow)
    (cols : List String) (rows : List TransactionRow) (st : ClientState) :
    Except (List String) (List NormalizedRow) × ClientState :=
  if (missingColumns cols).isEmpty then
    (Except.ok (processRows fetch (sortImpl rows) st).1,
     (processRows fetch (sortImpl rows) st).2)
  else
    (Except.error (missingColumns cols), st)

/-- Order on input rows by settlement date. -/
def rowLe (a b : TransactionRow) : Prop :=
  Date.le a.completedDate b.completedDate

instance (a b : TransactionRow) : Decidable (rowLe a b) := by
  unfold rowLe
  infer_instance

/-- Order on output rows by date. -/
def outRowLe (a b : NormalizedRow) : Prop :=
  Date.le a.date b.date

instance (a b : NormalizedRow) : Decidable (outRowLe a b) := by
  unfold outRowLe
  infer_instance

/-- What pandas sort_values with the default kind (quicksort) promises of
its result: a permutation of the input, ordered by the key column.  It
does not promise stability; any function satisfying this contract is a
legal behavior of the library call. -/
def IsSortValuesBehavior (sortImpl : List TransactionRow → List TransactionRow) :
    Prop :=
  ∀ l, (sortImpl l).Perm l ∧ (sortImpl l).Sorted rowLe

/-- A single output the sort_values contract permits on a single input. -/
def IsSortValuesResult (input output : List TransactionRow) : Prop :=
  output.Perm input ∧ output.Sorted rowLe

/-- Ties keep their input order: restricted to any date occurring in the
input, the output lists exactly the input's rows in the input's order. -/
def tiesPreserved (input output : List TransactionRow) : Bool :=
  (input.map fun r => r.completedDate).all fun d =>
    decide ((output.filter fun r => decide (r.completedDate = d)) =
            (input.filter fun r => decide (r.completedDate = d)))

/-! ### Cache lemmas -/

theorem cacheLookup_cons_self (cache : List ((String × String) × ℚ))
    (k : String × String) (v : ℚ) : cacheLookup ((k, v) :: cache) k = some v := by
  simp [cacheLookup, List.find?]

theorem cacheLookup_touch_self (cache : List ((String × String) × ℚ))
    (k : String × String) (v : ℚ) : cacheLookup (cacheTouch cache k v) k = some v := by
  unfold cacheTouch
  exact cacheLookup_cons_self _ k v

theorem cacheLookup_insert_self (cache : List ((String × String) × ℚ))
    (k : String × String) (v : ℚ) : cacheLookup (cacheInsert cache k v) k = some v := by
  unfold cacheInsert
  rw [show (128 : Nat) = 127 + 1 from rfl, List.take_succ_cons]
  exact cacheLookup_cons_self _ k v

theorem cacheLookup_mem (cache : List ((String × String) × ℚ))
    (k : String × String) (v : ℚ) (h : cacheLookup cache k = some v) :
    (k, v) ∈ cache := by
  unfold cacheLookup at h
  cases hf : cache.find? (fun p => decide (p.1 = k)) with
  | none => rw [hf] at h; simp at h
  | some q =>
    rw [hf] at h
    simp only [Option.map_some', Option.some.injEq] at h
    have hm := List.mem_of_find?_eq_some hf
    have hp := List.find?_some hf
    simp only [decide_eq_true_eq] at hp
    rw [← h, ← hp, Prod.mk.eta]
    exact hm

theorem mem_cacheTouch (cache : List ((String × String) × ℚ))
    (k : String × String) (v : ℚ) (p : (String × String) × ℚ)
    (h : p ∈ cacheTouch cache k v) : p = (k, v) ∨ p ∈ cache := by
  unfold cacheTouch at h
  rcases List.mem_cons.mp h with h | h
  · exact Or.inl h
  · exact Or.inr (List.mem_of_mem_filter h)

theorem mem_cacheInsert (cache : List ((String × String) × ℚ))
    (k : String × String) (v : ℚ) (p : (String × String) × ℚ)
    (h : p ∈ cacheInsert cache k v) : p = (k, v) ∨ p ∈ cache := by
  unfold cacheInsert at h
  have h' := List.take_subset _ _ h
  rcases List.mem_cons.mp h' with h'' | h''
  · exact Or.inl h''
  · exact Or.inr (List.mem_of_mem_filter h'')

/-! ### Behavior of one client call -/

theorem get_ok_lookup (fetch : FetchOracle) (c d : String) (st : ClientState)
    (r : ℚ) (st₁ : ClientState)
    (h : get_exchange_rate_to_gbp fetch c d st = (Except.ok r, st₁)) :
    cacheLookup st₁.cache (c, d) = some r := by
  unfold get_exchange_rate_to_gbp at h
  cases hl : cacheLookup st.cache (c, d) with
  | some v =>
    rw [hl] at h
    simp only [Prod.mk.injEq, Except.ok.injEq] at h
    obtain ⟨rfl, rfl⟩ := h
    exact cacheLookup_touch_self st.cache (c, d) v
  | none =>
    rw [hl] at h
    by_cases hv : validDateYMD d
    · rw [if_pos hv] at h
      by_cases hg : pyUpper c = "GBP"
      · rw [if_pos hg] at h
        simp only [Prod.mk.injEq, Except.ok.injEq] at h
        obtain ⟨hr, rfl⟩ := h
        rw [← hr]
        exact cacheLookup_insert_self st.cache (c, d) 1
      · rw [if_neg hg] at h
        cases hf : fetch st.networkCalls (pyUpper c) d with
        | ok v =>
          rw [hf] at h
          simp only [Prod.mk.injEq, Except.ok.injEq] at h
          obtain ⟨rfl, rfl⟩ := h
          exact cacheLookup_insert_self st.cache (c, d) v
        | error e =>
          rw [hf] at h
          simp at h
    · rw [if_neg hv] at h
      simp at h

theorem wellFormed_init : WellFormedState ClientState.init := by
  intro p hp
  simp [ClientState.init] at hp

theorem wellFormed_preserved (fetch : FetchOracle) (c d : String)
    (st : ClientState) (h : WellFormedState st) :
    WellFormedState (get_exchange_rate_to_gbp fetch c d st).2 := by
  unfold get_exchange_rate_to_gbp
  cases hl : cacheLookup st.cache (c, d) with
  | some v =>
    intro p hp
    rcases mem_cacheTouch st.cache (c, d) v p hp with rfl | hmem
    · have hv := h _ (cacheLookup_mem st.cache (c, d) v hl)
      exact hv
    · exact h p hmem
  | none =>
    by_cases hv : validDateYMD d
    · rw [if_pos hv]
      by_cases hg : pyUpper c = "GBP"
      · rw [if_pos hg]
        intro p hp
        rcases mem_cacheInsert st.cache (c, d) 1 p hp with rfl | hmem
        · exact ⟨hv, fun _ => rfl⟩
        · exact h p hmem
      · rw [if_neg hg]
        cases hf : fetch st.networkCalls (pyUpper c) d with
        | ok v =>
          intro p hp
          rcases mem_cacheInsert st.cache (c, d) v p hp with rfl | hmem
          · exact ⟨hv, fun hgg => absurd hgg hg⟩
          · exact h p hmem
        | error e => exact h
    · rw [if_neg hv]
      exact h

/-- In a well-formed state, no cached key carries an invalid date, so a
lookup with an invalid date always misses. -/
theorem lookup_invalid_date_misses (st : ClientState) (c d : String)
    (h : WellFormedState st) (hd : validDateYMD d = false) :
    cacheLookup st.cache (c, d) = none := by
  cases hl : cacheLookup st.cache (c, d) with
  | none => rfl
  | some v =>
    have hmem := cacheLookup_mem st.cache (c, d) v hl
    have := (h _ hmem).1
    simp at this
    rw [hd] at this
    exact absurd this (by simp)

/-- Any casing of GBP resolves to 1 without touching the network, from
any well-formed state, whatever the external source would answer. -/
theorem gbpShortCircuitAux (fetch : FetchOracle) (c d : String)
    (st : ClientState) (h : WellFormedState st) (hg : pyUpper c = "GBP")
    (hd : validDateYMD d = true) :
    (get_exchange_rate_to_gbp fetch c d st).1 = Except.ok 1 ∧
    (get_exchange_rate_to_gbp fetch c d st).2.networkCalls = st.networkCalls := by
  unfold get_exchange_rate_to_gbp
  cases hl : cacheLookup st.cache (c, d) with
  | some v =>
    have hmem := cacheLookup_mem st.cache (c, d) v hl
    have hv1 := (h _ hmem).2 hg
    subst hv1
    exact ⟨rfl, rfl⟩
  | none =>
    rw [if_pos hd, if_pos hg]
    exact ⟨rfl, rfl⟩

/-- A failed call leaves the cache exactly as it was. -/
theorem get_error_cache_unchanged (fetch : FetchOracle) (c d : String)
    (st : ClientState) (e : ExchangeRateError) (st₁ : ClientState)
    (h : get_exchange_rate_to_gbp fetch c d st = (Except.error e, st₁)) :
    st₁.cache = st.cache ∧ cacheLookup st.cache (c, d) = none := by
  unfold get_exchange_rate_to_gbp at h
  cases hl : cacheLookup st.cache (c, d) with
  | some v => rw [hl] at h; simp at h
  | none =>
    refine ⟨?_, rfl⟩
    rw [hl] at h
    by_cases hv : validDateYMD d
    · rw [if_pos hv] at h
      by_cases hg : pyUpper c = "GBP"
      · rw [if_pos hg] at h; simp at h
      · rw [if_neg hg] at h
        cases hf : fetch st.networkCalls (pyUpper c) d with
        | ok v => rw [hf] at h; simp at h
        | error e' =>
          rw [hf] at h
          simp only [Prod.mk.injEq] at h
          rw [← h.2]
    · rw [if_neg hv] at h
      simp only [Prod.mk.injEq] at h
      rw [← h.2]

/-- After a failed call the next call for the same key re-runs the body:
with a valid date and a non-GBP currency it consults the network again,
and a now-successful response is returned. -/
theorem get_retry_after_error (fetch : FetchOracle) (c d : String)
    (st₁ : ClientState) (v : ℚ)
    (hmiss : cacheLookup st₁.cache (c, d) = none)
    (hv : validDateYMD d = true) (hg : pyUpper c ≠ "GBP")
    (hf : fetch st₁.networkCalls (pyUpper c) d = Except.ok v) :
    (get_exchange_rate_to_gbp fetch c d st₁).1 = Except.ok v ∧
    (get_exchange_rate_to_gbp fetch c d st₁).2.networkCalls =
      st₁.networkCalls + 1 := by
  unfold get_exchange_rate_to_gbp
  rw [hmiss, if_pos hv, if_neg hg, hf]
  exact ⟨rfl, rfl⟩

/-- The non-GBP branch of calculate_gbp_amount on a successful lookup:
the USD rate of the row's date is applied to the Amount column. -/
theorem calcNonGbpOkAux (fetch : FetchOracle) (row : TransactionRow)
    (st : ClientState) (hne : row.origCurrency ≠ "GBP") (r : ℚ)
    (st' : ClientState)
    (h : get_exchange_rate_to_gbp fetch "USD" (strftimeYMD row.completedDate) st
          = (Except.ok r, st')) :
    calculate_gbp_amount fetch row st = ((row.amount * r, none), st') := by
  unfold calculate_gbp_amount
  rw [if_neg hne]
  simp only [h]

/-- The non-GBP branch of calculate_gbp_amount on a failed lookup:
0.0 plus the stderr warning, the error swallowed. -/
theorem calcNonGbpErrAux (fetch : FetchOracle) (row : TransactionRow)
    (st : ClientState) (hne : row.origCurrency ≠ "GBP")
    (e : ExchangeRateError) (st' : ClientState)
    (h : get_exchange_rate_to_gbp fetch "USD" (strftimeYMD row.completedDate) st
          = (Except.error e, st')) :
    calculate_gbp_amount fetch row st =
      ((0, some (warningMessage (strftimeYMD row.completedDate) e)), st') := by
  unfold calculate_gbp_amount
  rw [if_neg hne]
  simp only [h]

/-- Row conversion preserves, rowwise, the date and the description. -/
theorem processRows_keys (fetch : FetchOracle) (rows : List TransactionRow)
    (st : ClientState) :
    (processRows fetch rows st).1.map (fun o => (o.date, o.description)) =
      rows.map (fun r => (r.completedDate, r.description)) := by
  induction rows generalizing st with
  | nil => rfl
  | cons r rs ih =>
    simp only [processRows, List.map_cons, mkNormalized]
    rw [ih]

theorem processRows_length (fetch : FetchOracle) (rows : List TransactionRow)
    (st : ClientState) :
    (processRows fetch rows st).1.length = rows.length := by
  have h := congrArg List.length (processRows_keys fetch rows st)
  simpa using h

theorem processRows_dates (fetch : FetchOracle) (rows : List TransactionRow)
    (st : ClientState) :
    (processRows fetch rows st).1.map (fun o => o.date) =
      rows.map (fun r => r.completedDate) := by
  have h := congrArg (List.map Prod.fst) (processRows_keys fetch rows st)
  simpa [Function.comp] using h

instance : IsTotal TransactionRow rowLe := by
  constructor
  intro a b
  unfold rowLe Date.le
  omega

instance : IsTrans TransactionRow rowLe := by
  constructor
  intro a b c
  unfold rowLe Date.le
  omega

/-- The reference sort used to witness the sort contract: insertion sort
by settlement date, one legal behavior of sort_values. -/
def sortValuesRef : List TransactionRow → List TransactionRow :=
  List.insertionSort rowLe

theorem sortValuesRef_behavior : IsSortValuesBehavior sortValuesRef :=
  fun l => ⟨List.perm_insertionSort rowLe l, List.sorted_insertionSort rowLe l⟩

theorem string_append_assoc (a b c : String) :
    (a ++ b) ++ c = a ++ (b ++ c) := by
  cases a
  cases b
  cases c
  simp only [HAppend.hAppend, Append.append, String.append]
  simp [List.append_assoc]

/-! ### Concrete fixtures used by the witnesses -/

/-- An external source that fails on every request. -/
def wFetchFail : FetchOracle :=
  fun _ _ _ => Except.error ExchangeRateError.malformedResponse

/-- An external source answering a USD rate of 0.79 on every request. -/
def wFetch79 : FetchOracle :=
  fun _ _ _ => Except.ok (79/100)

/-- An external source whose first request times out and whose later
requests succeed. -/
def wFetchRetry : FetchOracle :=
  fun n _ _ =>
    if n = 0 then Except.error (ExchangeRateError.transportError "timeout")
    else Except.ok 2

/-- The client state after one successful USD lookup against wFetch79. -/
def wSt79 : ClientState :=
  { cache := [(("USD", "2025-01-15"), 79/100)], networkCalls := 1 }

/-- The currency-exchange row of the GBP-branch example: true GBP
magnitude 50 recorded negative, direction positive in Amount. -/
def wRowGBP : TransactionRow :=
  { completedDate := ⟨2025, 1, 15⟩, description := "exchange",
    origCurrency := "GBP", origAmount := -50, amount := 10, balance := 0 }

/-- A EUR-denominated row whose Amount column has been pre-converted to
100 USD by the exporter. -/
def wRowEUR : TransactionRow :=
  { completedDate := ⟨2025, 1, 15⟩, description := "coffee",
    origCurrency := "EUR", origAmount := 90, amount := 100, balance := 5 }

/-- A row whose original currency is a lower-case gbp. -/
def wRowgbp : TransactionRow :=
  { completedDate := ⟨2025, 1, 15⟩, description := "misc",
    origCurrency := "gbp", origAmount := 20, amount := 30, balance := 0 }

/-- Two distinct rows settling on the same date, for the tie-order
analysis of the sort. -/
def wRowT1 : TransactionRow :=
  { completedDate := ⟨2025, 3, 1⟩, description := "first",
    origCurrency := "GBP", origAmount := 1, amount := 1, balance := 0 }

/-- Second of the two equal-date rows. -/
def wRowT2 : TransactionRow :=
  { completedDate := ⟨2025, 3, 1⟩, description := "second",
    origCurrency := "GBP", origAmount := 2, amount := 2, balance := 0 }

/-- An input header missing the Balance column. -/
def wCols : List String :=
  ["Date completed (UTC)", "Description", "Orig currency", "Orig amount",
   "Amount"]

/-! ### C1 -/

/-- C1: on a row whose Orig currency is exactly GBP, calculate_gbp_amount
returns abs(Orig amount) when Amount is nonnegative and -abs(Orig amount)
when Amount is negative; at Amount 0 the result is the nonnegative
abs(Orig amount); the client state is untouched and the result does not
depend on the external source, so no rate lookup happens for the row. -/
theorem gbp_branch_sign_and_no_lookup (fetch fetch' : FetchOracle)
    (row : TransactionRow) (st : ClientState) (h : row.origCurrency = "GBP") :
    (row.amount ≥ 0 →
      calculate_gbp_amount fetch row st = ((|row.origAmount|, none), st)) ∧
    (row.amount < 0 →
      calculate_gbp_amount fetch row st = ((-|row.origAmount|, none), st)) ∧
    (row.amount = 0 →
      (calculate_gbp_amount fetch row st).1.1 = |row.origAmount| ∧
      0 ≤ (calculate_gbp_amount fetch row st).1.1) ∧
    calculate_gbp_amount fetch row st = calculate_gbp_amount fetch' row st := by
  unfold calculate_gbp_amount
  rw [if_pos h, if_pos h]
  refine ⟨fun h0 => by rw [if_pos h0], fun h0 => by rw [if_neg (not_le.mpr h0)],
    fun h0 => ?_, rfl⟩
  have hge : row.amount ≥ 0 := le_of_eq h0.symm
  rw [if_pos hge]
  exact ⟨rfl, abs_nonneg _⟩

/-- Witness for C1 at the worked example: Orig amount -50, Amount +10
gives +50 from the untouched initial state, even against a failing
source. -/
theorem gbp_branch_sign_witness :
    wRowGBP.origCurrency = "GBP" ∧ wRowGBP.amount ≥ 0 ∧
    calculate_gbp_amount wFetchFail wRowGBP ClientState.init =
      ((50, none), ClientState.init) := by
  refine ⟨rfl, by decide, ?_⟩
  have h := (gbp_branch_sign_and_no_lookup wFetchFail wFetch79 wRowGBP
    ClientState.init rfl).1 (by decide)
  rw [h]
  norm_num [wRowGBP]

/-! ### C2 -/

/-- C2: on a row whose Orig currency is anything but the exact string
GBP, calculate_gbp_amount resolves the rate for the fixed currency USD at
the row's settlement date and returns Amount times that rate; the result
is the same whatever non-GBP value the Orig currency column holds. -/
theorem non_gbp_converts_via_usd (fetch : FetchOracle) (row : TransactionRow)
    (st : ClientState) (h : row.origCurrency ≠ "GBP") :
    (∀ r st₁,
      get_exchange_rate_to_gbp fetch "USD" (strftimeYMD row.completedDate) st =
        (Except.ok r, st₁) →
      calculate_gbp_amount fetch row st = ((row.amount * r, none), st₁)) ∧
    (∀ c, c ≠ "GBP" →
      calculate_gbp_amount fetch { row with origCurrency := c } st =
        calculate_gbp_amount fetch row st) := by
  constructor
  · intro r st₁ hget
    exact calcNonGbpOkAux fetch row st h r st₁ hget
  · intro c hc
    unfold calculate_gbp_amount
    rw [if_neg, if_neg h]
    exact hc

/-- Witness for C2 at the worked example: a EUR row with Amount 100 USD
and a resolved rate of 0.79 yields 79 GBP. -/
theorem non_gbp_usd_rate_witness :
    wRowEUR.origCurrency ≠ "GBP" ∧
    calculate_gbp_amount wFetch79 wRowEUR ClientState.init =
      ((wRowEUR.amount * (79/100), none), wSt79) ∧
    wRowEUR.amount * (79/100 : ℚ) = 79 := by
  refine ⟨by decide, ?_, by norm_num [wRowEUR]⟩
  exact (non_gbp_converts_via_usd wFetch79 wRowEUR ClientState.init
    (by decide)).1 (79/100) wSt79 rfl

/-! ### C3 -/

/-- C3: when the rate lookup of a row fails with an ExchangeRateError,
calculate_gbp_amount returns 0.0 for the row together with a warning that
contains the affected date; the error is swallowed at the row boundary,
and the batch always produces one output row per input row, dates and
descriptions intact, so the remaining rows are processed and the batch
completes. -/
theorem rate_failure_degrades_gracefully :
    (∀ (fetch : FetchOracle) (row : TransactionRow) (st : ClientState)
        (e : ExchangeRateError) (st₁ : ClientState),
      row.origCurrency ≠ "GBP" →
      get_exchange_rate_to_gbp fetch "USD" (strftimeYMD row.completedDate) st =
        (Except.error e, st₁) →
      calculate_gbp_amount fetch row st =
        ((0, some (warningMessage (strftimeYMD row.completedDate) e)), st₁) ∧
      ∃ pre post,
        warningMessage (strftimeYMD row.completedDate) e =
          pre ++ strftimeYMD row.completedDate ++ post) ∧
    (∀ (fetch : FetchOracle) (rows : List TransactionRow) (st : ClientState),
      (processRows fetch rows st).1.length = rows.length ∧
      (processRows fetch rows st).1.map (fun o => (o.date, o.description)) =
        rows.map (fun r => (r.completedDate, r.description))) := by
  constructor
  · intro fetch row st e st₁ hne hget
    refine ⟨calcNonGbpErrAux fetch row st hne e st₁ hget,
      "Warning: Could not fetch exchange rate for ",
      ": " ++ e.message ++ "\n" ++
        "  Using 0.0 for Amount GBP. Please check this transaction manually.",
      ?_⟩
    unfold warningMessage
    simp only [string_append_assoc]
  · intro fetch rows st
    exact ⟨processRows_length fetch rows st, processRows_keys fetch rows st⟩

/-- Witness for C3: against an always-failing source a EUR row degrades
to 0.0 with its warning, and a two-row batch still yields two rows. -/
theorem rate_failure_witness :
    wRowEUR.origCurrency ≠ "GBP" ∧
    calculate_gbp_amount wFetchFail wRowEUR ClientState.init =
      ((0, some (warningMessage "2025-01-15" ExchangeRateError.malformedResponse)),
        { cache := [], networkCalls := 1 }) ∧
    (processRows wFetchFail [wRowEUR, wRowGBP] ClientState.init).1.length = 2 := by
  refine ⟨by decide, ?_, ?_⟩
  · exact (rate_failure_degrades_gracefully.1 wFetchFail wRowEUR ClientState.init
      ExchangeRateError.malformedResponse { cache := [], networkCalls := 1 }
      (by decide) rfl).1
  · exact (rate_failure_degrades_gracefully.2 wFetchFail [wRowEUR, wRowGBP]
      ClientState.init).1

/-! ### C4 -/

/-- Counterexample to C4 as stated: for the malformed date argument
"not-a-date" the GBP lookup does not return 1.0 — the date is validated
before the GBP short-circuit, so InvalidDate is raised instead. -/
theorem gbp_any_date_counterexample :
    (get_exchange_rate_to_gbp wFetchFail "GBP" "not-a-date" ClientState.init).1 =
      Except.error (ExchangeRateError.invalidDate "not-a-date") ∧
    (get_exchange_rate_to_gbp wFetchFail "GBP" "not-a-date" ClientState.init).1 ≠
      Except.ok 1 := by
  refine ⟨rfl, ?_⟩
  rw [show (get_exchange_rate_to_gbp wFetchFail "GBP" "not-a-date"
    ClientState.init).1 =
      Except.error (ExchangeRateError.invalidDate "not-a-date") from rfl]
  simp

/-- C4 amended: for every well-formed date string, resolving any casing
of GBP from any reachable client state returns exactly 1.0 and performs
no network request, for every behavior of the external source. -/
theorem gbp_resolves_to_one_for_valid_dates (fetch : FetchOracle)
    (c d : String) (st : ClientState) (hw : WellFormedState st)
    (hg : pyUpper c = "GBP") (hd : validDateYMD d = true) :
    (get_exchange_rate_to_gbp fetch c d st).1 = Except.ok 1 ∧
    (get_exchange_rate_to_gbp fetch c d st).2.networkCalls =
      st.networkCalls :=
  gbpShortCircuitAux fetch c d st hw hg hd

/-- Witness for the amended C4: GBP on a valid date against a source
that fails on any call still yields 1.0 with zero network requests. -/
theorem gbp_resolves_witness :
    WellFormedState ClientState.init ∧ pyUpper "GBP" = "GBP" ∧
    validDateYMD "2025-01-15" = true ∧
    (get_exchange_rate_to_gbp wFetchFail "GBP" "2025-01-15"
        ClientState.init).1 = Except.ok 1 ∧
    (get_exchange_rate_to_gbp wFetchFail "GBP" "2025-01-15"
        ClientState.init).2.networkCalls = 0 := by
  have h := gbp_resolves_to_one_for_valid_dates wFetchFail "GBP" "2025-01-15"
    ClientState.init wellFormed_init (by decide) (by decide)
  exact ⟨wellFormed_init, by decide, by decide, h.1, h.2⟩

/-! ### C5 -/

/-- C5: when a call for a currency/date pair succeeds with some rate, an
immediately following call with the same arguments returns the identical
rate and issues no further network request: the value is served from the
cache. -/
theorem second_call_served_from_cache (fetch : FetchOracle) (c d : String)
    (st : ClientState) (r : ℚ) (st₁ : ClientState)
    (h : get_exchange_rate_to_gbp fetch c d st = (Except.ok r, st₁)) :
    (get_exchange_rate_to_gbp fetch c d st₁).1 = Except.ok r ∧
    (get_exchange_rate_to_gbp fetch c d st₁).2.networkCalls =
      st₁.networkCalls := by
  have hl := get_ok_lookup fetch c d st r st₁ h
  unfold get_exchange_rate_to_gbp
  rw [hl]
  exact ⟨rfl, rfl⟩

/-- Witness for C5: after one successful USD lookup the repeat call
returns the same 0.79 and the request count stays at 1. -/
theorem second_call_witness :
    get_exchange_rate_to_gbp wFetch79 "USD" "2025-01-15" ClientState.init =
      (Except.ok (79/100), wSt79) ∧
    (get_exchange_rate_to_gbp wFetch79 "USD" "2025-01-15" wSt79).1 =
      Except.ok (79/100) ∧
    (get_exchange_rate_to_gbp wFetch79 "USD" "2025-01-15"
        wSt79).2.networkCalls = 1 := by
  have h := second_call_served_from_cache wFetch79 "USD" "2025-01-15"
    ClientState.init (79/100) wSt79 rfl
  exact ⟨rfl, h.1, h.2⟩

/-! ### C6 -/

/-- Counterexample to C6 as stated: the sort the pipeline relies on is
the library default (quicksort), whose contract fixes only a sorted
permutation.  On two rows sharing a settlement date the swapped output
satisfies that contract while breaking the claimed tie order, so
stability is not guaranteed by the code. -/
theorem sort_stability_counterexample :
    IsSortValuesResult [wRowT1, wRowT2] [wRowT2, wRowT1] ∧
    tiesPreserved [wRowT1, wRowT2] [wRowT2, wRowT1] = false := by
  refine ⟨⟨List.Perm.swap wRowT1 wRowT2 [], ?_⟩, by decide⟩
  decide

/-- C6 amended: whenever the pipeline succeeds, its output is sorted by
settlement date ascending regardless of the input order, and its dates
are a permutation of the input dates, for every legal behavior of the
unstable library sort; the relative order of equal-date rows is not
guaranteed. -/
theorem transform_output_sorted
    (sortImpl : List TransactionRow → List TransactionRow)
    (hs : IsSortValuesBehavior sortImpl) (fetch : FetchOracle)
    (cols : List String) (rows : List TransactionRow) (st : ClientState)
    (out : List NormalizedRow) (st₁ : ClientState)
    (h : process_revolut_csv fetch sortImpl cols rows st =
      (Except.ok out, st₁)) :
    out.Sorted outRowLe ∧
    (out.map fun o => o.date).Perm (rows.map fun r => r.completedDate) := by
  unfold process_revolut_csv at h
  by_cases hm : (missingColumns cols).isEmpty
  · rw [if_pos hm] at h
    simp only [Prod.mk.injEq, Except.ok.injEq] at h
    obtain ⟨h1, _⟩ := h
    rw [← h1]
    constructor
    · have hsorted : (sortImpl rows).Pairwise rowLe := (hs rows).2
      have hmap : ((sortImpl rows).map fun r => r.completedDate).Pairwise
          Date.le := by
        rw [List.pairwise_map]
        exact hsorted
      have hout : ((processRows fetch (sortImpl rows) st).1.map
          fun o => o.date).Pairwise Date.le := by
        rw [processRows_dates]
        exact hmap
      rw [List.pairwise_map] at hout
      exact hout
    · rw [processRows_dates]
      exact ((hs rows).1).map _
  · rw [if_neg hm] at h
    simp at h

/-- Witness for the amended C6, at the reference insertion-sort behavior
of the sort contract on the empty batch. -/
theorem transform_sorted_witness :
    process_revolut_csv wFetch79 sortValuesRef COLUMNS_TO_KEEP []
        ClientState.init = (Except.ok [], ClientState.init) ∧
    ([] : List NormalizedRow).Sorted outRowLe ∧
    (([] : List NormalizedRow).map fun o => o.date).Perm
      (([] : List TransactionRow).map fun r => r.completedDate) := by
  refine ⟨rfl, ?_⟩
  exact transform_output_sorted sortValuesRef sortValuesRef_behavior wFetch79
    COLUMNS_TO_KEEP [] ClientState.init [] ClientState.init rfl

/-! ### C7 -/

/-- C7: a failed lookup does not poison the cache — the cache is exactly
what it was before the call, and a later call with the same key runs the
network request again (here: if the fresh attempt answers a rate, the
retry returns it and the request count grows), instead of replaying the
failure or serving a cached value. -/
theorem failed_lookup_not_cached (fetch : FetchOracle) (c d : String)
    (st : ClientState) (e : ExchangeRateError) (st₁ : ClientState)
    (h : get_exchange_rate_to_gbp fetch c d st = (Except.error e, st₁)) :
    st₁.cache = st.cache ∧
    (∀ v, validDateYMD d = true → pyUpper c ≠ "GBP" →
      fetch st₁.networkCalls (pyUpper c) d = Except.ok v →
      (get_exchange_rate_to_gbp fetch c d st₁).1 = Except.ok v ∧
      (get_exchange_rate_to_gbp fetch c d st₁).2.networkCalls =
        st₁.networkCalls + 1) := by
  obtain ⟨hc, hmiss⟩ := get_error_cache_unchanged fetch c d st e st₁ h
  refine ⟨hc, fun v hv hg hf => ?_⟩
  have hmiss₁ : cacheLookup st₁.cache (c, d) = none := by
    rw [hc]
    exact hmiss
  exact get_retry_after_error fetch c d st₁ v hmiss₁ hv hg hf

/-- Witness for C7: the first request times out and leaves the cache
empty; the retry issues a second request and obtains the rate 2. -/
theorem failed_lookup_retry_witness :
    get_exchange_rate_to_gbp wFetchRetry "USD" "2025-01-15" ClientState.init =
      (Except.error (ExchangeRateError.transportError "timeout"),
        { cache := [], networkCalls := 1 }) ∧
    (get_exchange_rate_to_gbp wFetchRetry "USD" "2025-01-15"
        { cache := [], networkCalls := 1 }).1 = Except.ok 2 ∧
    (get_exchange_rate_to_gbp wFetchRetry "USD" "2025-01-15"
        { cache := [], networkCalls := 1 }).2.networkCalls = 2 := by
  have h := (failed_lookup_not_cached wFetchRetry "USD" "2025-01-15"
    ClientState.init (ExchangeRateError.transportError "timeout")
    { cache := [], networkCalls := 1 } rfl).2 2 (by decide) (by decide) rfl
  exact ⟨rfl, h.1, h.2⟩

/-! ### C8 -/

/-- C8: for every malformed date string and every currency argument, the
client raises InvalidDate and makes no network attempt: the state, its
request counter included, is returned untouched. -/
theorem invalid_date_rejected_before_network (fetch : FetchOracle)
    (c d : String) (st : ClientState) (hw : WellFormedState st)
    (hd : validDateYMD d = false) :
    get_exchange_rate_to_gbp fetch c d st =
      (Except.error (ExchangeRateError.invalidDate d), st) := by
  unfold get_exchange_rate_to_gbp
  rw [lookup_invalid_date_misses st c d hw hd, if_neg (by simp [hd])]

/-- Witness for C8 at a slash-formatted date. -/
theorem invalid_date_witness :
    WellFormedState ClientState.init ∧ validDateYMD "15/01/2025" = false ∧
    get_exchange_rate_to_gbp wFetch79 "USD" "15/01/2025" ClientState.init =
      (Except.error (ExchangeRateError.invalidDate "15/01/2025"),
        ClientState.init) :=
  ⟨wellFormed_init, by decide,
    invalid_date_rejected_before_network wFetch79 "USD" "15/01/2025"
      ClientState.init wellFormed_init (by decide)⟩

/-! ### C9 -/

/-- C9: when any required input column is absent, the pipeline fails at
once with the list of missing column names: no row is converted, no
network request happens and no output is produced — the error and the
untouched client state come back for every source behavior and every
sort behavior. -/
theorem missing_columns_fail_fast (fetch : FetchOracle)
    (sortImpl : List TransactionRow → List TransactionRow)
    (cols : List String) (rows : List TransactionRow) (st : ClientState)
    (h : missingColumns cols ≠ []) :
    process_revolut_csv fetch sortImpl cols rows st =
      (Except.error (missingColumns cols), st) := by
  unfold process_revolut_csv
  rw [if_neg (by simpa [List.isEmpty_iff] using h)]

/-- Witness for C9: a header without Balance aborts with exactly that
missing column named, from the untouched initial state. -/
theorem missing_columns_witness :
    missingColumns wCols ≠ [] ∧
    process_revolut_csv wFetch79 sortValuesRef wCols [wRowEUR]
        ClientState.init =
      (Except.error ["Balance"], ClientState.init) := by
  refine ⟨by decide, ?_⟩
  exact missing_columns_fail_fast wFetch79 sortValuesRef wCols [wRowEUR]
    ClientState.init (by decide)

/-! ### C10 -/

/-- C10: the GBP test of the conversion rule is exact-match
case-sensitive: a row whose Orig currency uppercases to GBP without
being the exact string GBP takes the non-GBP branch and converts its
Amount with the USD rate — even though the resolver itself, fed that
very string, would treat it case-insensitively as GBP and answer 1.0. -/
theorem gbp_casing_mismatch (fetch : FetchOracle) (row : TransactionRow)
    (st : ClientState) (hne : row.origCurrency ≠ "GBP")
    (hup : pyUpper row.origCurrency = "GBP") :
    (∀ r st₁,
      get_exchange_rate_to_gbp fetch "USD" (strftimeYMD row.completedDate) st =
        (Except.ok r, st₁) →
      calculate_gbp_amount fetch row st = ((row.amount * r, none), st₁)) ∧
    (∀ d, WellFormedState st → validDateYMD d = true →
      (get_exchange_rate_to_gbp fetch row.origCurrency d st).1 =
        Except.ok 1) :=
  ⟨fun r st₁ hget => calcNonGbpOkAux fetch row st hne r st₁ hget,
    fun d hw hd => (gbpShortCircuitAux fetch row.origCurrency d st hw hup hd).1⟩

/-- Witness for C10: a lower-case gbp row is converted through the USD
rate 0.79, while the resolver answers 1.0 for the same string. -/
theorem gbp_casing_witness :
    wRowgbp.origCurrency ≠ "GBP" ∧ pyUpper wRowgbp.origCurrency = "GBP" ∧
    calculate_gbp_amount wFetch79 wRowgbp ClientState.init =
      ((wRowgbp.amount * (79/100), none), wSt79) ∧
    (get_exchange_rate_to_gbp wFetch79 wRowgbp.origCurrency "2025-01-15"
        ClientState.init).1 = Except.ok 1 := by
  have h := gbp_casing_mismatch wFetch79 wRowgbp ClientState.init (by decide)
    (by decide)
  exact ⟨by decide, by decide, h.1 (79/100) wSt79 rfl,
    h.2 "2025-01-15" wellFormed_init (by decide)⟩
